import Mathlib

/-!
Verification of `src/bin/reduce_challenge.rs` (powersoftau challenge reducer).

The file is modelled as a `List Nat` of bytes.  Streams are embedded by
explicit state passing: a reader is the list of bytes not yet consumed, and
`read_exact` consumes a prefix or fails.  `usize` arithmetic is `Nat` with an
explicit `% 2^64` where wrap-around matters.
-/

set_option autoImplicit false
set_option maxRecDepth 4000

/-- Modelled from the spec: the byte width of an uncompressed kind-A ("G1")
point, a constant supplied by the external curve library
(`Bls12CeremonyParameters::G1_UNCOMPRESSED_BYTE_SIZE`, not part of `src/`). -/
def G1_UNCOMPRESSED_BYTE_SIZE : Nat := 96

/-- Modelled from the spec: the byte width of an uncompressed kind-B ("G2")
point, a constant supplied by the external curve library
(`Bls12CeremonyParameters::G2_UNCOMPRESSED_BYTE_SIZE`, not part of `src/`). -/
def G2_UNCOMPRESSED_BYTE_SIZE : Nat := 192

/-- Count of points in the `tau_powers_g2`, `alpha_tau_powers_g1` and
`beta_tau_powers_g1` sections: `1 << power` in the source. -/
def tau_length (power : Nat) : Nat := 1 <<< power

/-- Count of points in the `tau_powers_g1` section:
`(tau_powers_length << 1) - 1` in the source. -/
def tau_g1_length (power : Nat) : Nat := (tau_length power <<< 1) - 1

/-- Expected byte size of the accumulator body (file minus the 64-byte hash)
for a given power; mirrors the `expected_size` computation inside
`detect_power_from_size` (lines 143-150 of the source). -/
def expected_accumulator_bytes (power : Nat) : Nat :=
  tau_g1_length power * G1_UNCOMPRESSED_BYTE_SIZE +
  tau_length power * G2_UNCOMPRESSED_BYTE_SIZE +
  tau_length power * G1_UNCOMPRESSED_BYTE_SIZE +
  tau_length power * G1_UNCOMPRESSED_BYTE_SIZE +
  G2_UNCOMPRESSED_BYTE_SIZE

/-- Power detector: linear scan of powers `10..=27`, returning the first power
whose expected accumulator size matches; `none` models the `panic!` of the
source when no power matches. -/
def detect_power_from_size (accumulator_size : Nat) : Option Nat :=
  (List.range' 10 18).find? fun power =>
    expected_accumulator_bytes power == accumulator_size

/-- Size of the `usize` value space on the 64-bit targets the tool runs on. -/
def USIZE : Nat := 2 ^ 64

/-- Wrapping `usize` subtraction `a - b` (release-profile Rust semantics);
used to model the unguarded `input_file_size - 64`. -/
def wrapSub (a b : Nat) : Nat := (a + (USIZE - b)) % USIZE

/-- Read exactly `n` bytes from a stream: mirrors `Read::read_exact`, which
fails when fewer than `n` bytes remain.  Returns the bytes read and the rest
of the stream. -/
def read_exact (s : List Nat) (n : Nat) : Option (List Nat × List Nat) :=
  if n ≤ s.length then some (s.take n, s.drop n) else none

/-- Mirrors `stream_copy_points`: read `count` points of `point_size` bytes
one at a time, appending each to the output.  Returns the bytes written and
the remaining input stream; `none` models the propagated i/o error on a short
read. -/
def stream_copy_points (s : List Nat) (count point_size : Nat) :
    Option (List Nat × List Nat) :=
  match count with
  | 0 => some ([], s)
  | c + 1 =>
    match read_exact s point_size with
    | none => none
    | some (buf, rest) =>
      match stream_copy_points rest c point_size with
      | none => none
      | some (out, rest2) => some (buf ++ out, rest2)

/-- Mirrors `skip_points`: read and drop `count` points of `point_size`
bytes.  Returns the remaining input stream. -/
def skip_points (s : List Nat) (count point_size : Nat) : Option (List Nat) :=
  match count with
  | 0 => some s
  | c + 1 =>
    match read_exact s point_size with
    | none => none
    | some (_, rest) => skip_points rest c point_size

/-- One copy-then-conditionally-skip block of `main`: copy `copyCount` points,
then, when `skipCount > 0`, read and drop `skipCount` further points. -/
def process_section (s : List Nat) (copyCount skipCount point_size : Nat) :
    Option (List Nat × List Nat) :=
  match stream_copy_points s copyCount point_size with
  | none => none
  | some (out, rest) =>
    if skipCount > 0 then
      match skip_points rest skipCount point_size with
      | none => none
      | some rest2 => some (out, rest2)
    else some (out, rest)

/-- Terminal failure modes of `main`, one per distinct abort site: the usage
check `target_power > 27`, the `panic!` of `detect_power_from_size`, the
`target_power > current_power` check, the `create_new` failure on an existing
output file, and any short read while streaming. -/
inductive ReduceError
  | usageError
  | unsupportedSize
  | targetTooLarge
  | outputExists
  | truncatedInput
deriving DecidableEq

/-- Model of `main` after argument parsing.  `input` is the input file's
bytes, `outputExists` is whether a file is already present at the output
path, `target_power` is the parsed third argument.  On success the result is
the full byte content written to the output file; every error models a
process abort at the corresponding source line, in source order: the
`target_power > 27` check, power detection on `file size - 64` (wrapping
`usize` arithmetic, unguarded for short files), the
`target_power > current_power` check, the `create_new` open of the output
path, then the header copy and the five copy/skip section blocks. -/
def reduce (input : List Nat) (outputExists : Bool) (target_power : Nat) :
    Except ReduceError (List Nat) :=
  if target_power > 27 then .error .usageError else
  match detect_power_from_size (wrapSub input.length 64) with
  | none => .error .unsupportedSize
  | some current_power =>
  if target_power > current_power then .error .targetTooLarge else
  if outputExists then .error .outputExists else
  match read_exact input 64 with
  | none => .error .truncatedInput
  | some (hash, r0) =>
  match process_section r0 (tau_g1_length target_power)
      (tau_g1_length current_power - tau_g1_length target_power)
      G1_UNCOMPRESSED_BYTE_SIZE with
  | none => .error .truncatedInput
  | some (s1, r1) =>
  match process_section r1 (tau_length target_power)
      (tau_length current_power - tau_length target_power)
      G2_UNCOMPRESSED_BYTE_SIZE with
  | none => .error .truncatedInput
  | some (s2, r2) =>
  match process_section r2 (tau_length target_power)
      (tau_length current_power - tau_length target_power)
      G1_UNCOMPRESSED_BYTE_SIZE with
  | none => .error .truncatedInput
  | some (s3, r3) =>
  match process_section r3 (tau_length target_power)
      (tau_length current_power - tau_length target_power)
      G1_UNCOMPRESSED_BYTE_SIZE with
  | none => .error .truncatedInput
  | some (s4, r4) =>
  match process_section r4 1 0 G2_UNCOMPRESSED_BYTE_SIZE with
  | none => .error .truncatedInput
  | some (s5, _) =>
  .ok (hash ++ s1 ++ s2 ++ s3 ++ s4 ++ s5)

/-- Point kinds of the format: kind A is "G1", kind B is "G2". -/
inductive PKind
  | g1
  | g2
deriving DecidableEq

/-- Encoded byte width of each point kind. -/
def kindWidth : PKind → Nat
  | .g1 => G1_UNCOMPRESSED_BYTE_SIZE
  | .g2 => G2_UNCOMPRESSED_BYTE_SIZE

/-- Failure modes of the validator, mirroring the content of the error
strings the source builds: `invalidPoint k i` models
"Invalid {k} point at index {i}", `pointAtInfinity k i` models
"Point at infinity found at {k} index {i}", and `ioError` models a
propagated `read_exact` failure.  Note the errors carry the point kind and
the per-section zero-based index only - the source strings mention no
section name. -/
inductive VError
  | ioError
  | invalidPoint (kind : PKind) (idx : Nat)
  | pointAtInfinity (kind : PKind) (idx : Nat)
deriving DecidableEq

/-- Shared loop body of `verify_g1_points` / `verify_g2_points`.  The
external codec is abstracted exactly as the source uses it: `dec buf` is
`none` when `into_affine()` fails and `some b` when it succeeds with
`is_zero()` returning `b`.  `start` is the loop index of the first point
(the source always starts each section at 0). -/
def verify_points (dec : List Nat → Option Bool) (kind : PKind)
    (s : List Nat) (start count : Nat) : Except VError (List Nat) :=
  match count with
  | 0 => .ok s
  | c + 1 =>
    match read_exact s (kindWidth kind) with
    | none => .error .ioError
    | some (buf, rest) =>
      match dec buf with
      | none => .error (.invalidPoint kind start)
      | some true => .error (.pointAtInfinity kind start)
      | some false => verify_points dec kind rest (start + 1) c

/-- Mirrors `verify_g1_points`: decode `count` G1 points, rejecting on the
first decode failure or point at infinity, indices counted from 0. -/
def verify_g1_points (dec1 : List Nat → Option Bool) (s : List Nat)
    (count : Nat) : Except VError (List Nat) :=
  verify_points dec1 .g1 s 0 count

/-- Mirrors `verify_g2_points`: decode `count` G2 points, rejecting on the
first decode failure or point at infinity, indices counted from 0. -/
def verify_g2_points (dec2 : List Nat → Option Bool) (s : List Nat)
    (count : Nat) : Except VError (List Nat) :=
  verify_points dec2 .g2 s 0 count

/-- Mirrors `verify_reduced_challenge`: skip the 64-byte hash, then check the
five sections of the target-power layout in order.  `dec1` / `dec2` are the
external G1 / G2 codecs. -/
def verify_reduced_challenge (dec1 dec2 : List Nat → Option Bool)
    (file : List Nat) (target_power : Nat) : Except VError Unit :=
  match read_exact file 64 with
  | none => .error .ioError
  | some (_, r0) =>
  match verify_g1_points dec1 r0 (tau_g1_length target_power) with
  | .error e => .error e
  | .ok r1 =>
  match verify_g2_points dec2 r1 (tau_length target_power) with
  | .error e => .error e
  | .ok r2 =>
  match verify_g1_points dec1 r2 (tau_length target_power) with
  | .error e => .error e
  | .ok r3 =>
  match verify_g1_points dec1 r3 (tau_length target_power) with
  | .error e => .error e
  | .ok r4 =>
  match verify_g2_points dec2 r4 1 with
  | .error e => .error e
  | .ok _ => .ok ()

/-- Point count of section `i` (0-4, layout order) at power `p`. -/
def secCounts (p i : Nat) : Nat :=
  match i with
  | 0 => tau_g1_length p
  | 1 => tau_length p
  | 2 => tau_length p
  | 3 => tau_length p
  | 4 => 1
  | _ => 0

/-- Point kind of section `i` (0-4, layout order). -/
def secKindN (i : Nat) : PKind :=
  match i with
  | 0 => .g1
  | 1 => .g2
  | 2 => .g1
  | 3 => .g1
  | 4 => .g2
  | _ => .g1

/-- Codec used for section `i`. -/
def secDec (dec1 dec2 : List Nat → Option Bool) (i : Nat) :
    List Nat → Option Bool :=
  match secKindN i with
  | .g1 => dec1
  | .g2 => dec2

/-- Byte size of section `i` at power `p`. -/
def secBytes (p i : Nat) : Nat := secCounts p i * kindWidth (secKindN i)

/-- Byte offset of section `i` within the accumulator body at power `p`. -/
def secOffset (p i : Nat) : Nat :=
  match i with
  | 0 => 0
  | 1 => secBytes p 0
  | 2 => secBytes p 0 + secBytes p 1
  | 3 => secBytes p 0 + secBytes p 1 + secBytes p 2
  | 4 => secBytes p 0 + secBytes p 1 + secBytes p 2 + secBytes p 3
  | _ => 0

/-- Bytes of section `i` of an accumulator body laid out at power `p`. -/
def sectionOf (body : List Nat) (p i : Nat) : List Nat :=
  (body.drop (secOffset p i)).take (secBytes p i)

/-- Every one of the `count` points of width `w` at the head of stream `s`
decodes successfully to a non-identity point. -/
def pointsOk (dec : List Nat → Option Bool) (w : Nat) (s : List Nat)
    (count : Nat) : Prop :=
  ∀ i, i < count → dec ((s.drop (i * w)).take w) = some false

instance instDecPointsOk (dec : List Nat → Option Bool) (w : Nat)
    (s : List Nat) (count : Nat) : Decidable (pointsOk dec w s count) :=
  decidable_of_iff
    (∀ i, i < count → dec ((s.drop (i * w)).take w) = some false) Iff.rfl

/-- Every point of every one of the five sections of `body` (laid out at
power `p`) decodes successfully to a non-identity point. -/
def allSectionsOk (dec1 dec2 : List Nat → Option Bool) (body : List Nat)
    (p : Nat) : Prop :=
  ∀ i, i < 5 → pointsOk (secDec dec1 dec2 i) (kindWidth (secKindN i))
    (body.drop (secOffset p i)) (secCounts p i)

instance instDecAllSectionsOk (dec1 dec2 : List Nat → Option Bool)
    (body : List Nat) (p : Nat) : Decidable (allSectionsOk dec1 dec2 body p) :=
  decidable_of_iff
    (∀ i, i < 5 → pointsOk (secDec dec1 dec2 i) (kindWidth (secKindN i))
      (body.drop (secOffset p i)) (secCounts p i)) Iff.rfl

/-- Error the validator emits for the bad decode result `res` of the point
at per-section index `idx`. -/
def mkErr (kind : PKind) (res : Option Bool) (idx : Nat) : VError :=
  match res with
  | none => .invalidPoint kind idx
  | some _ => .pointAtInfinity kind idx

/-- Bytes a successful reduction of an input of power `c` down to power `t`
writes to the output file: the copied 64-byte header followed by the leading
prefix (at target-power length) of each of the five sections of the input's
accumulator body. -/
def reduceOutput (input : List Nat) (c t : Nat) : List Nat :=
  input.take 64 ++
  (input.drop 64).take (tau_g1_length t * 96) ++
  ((input.drop 64).drop (tau_g1_length c * 96)).take (tau_length t * 192) ++
  ((input.drop 64).drop (tau_g1_length c * 96 + tau_length c * 192)).take
    (tau_length t * 96) ++
  ((input.drop 64).drop
    (tau_g1_length c * 96 + tau_length c * 192 + tau_length c * 96)).take
    (tau_length t * 96) ++
  ((input.drop 64).drop
    (tau_g1_length c * 96 + tau_length c * 192 + tau_length c * 96 +
      tau_length c * 96)).take 192

/-- Concrete stand-in codec for witnesses and counterexamples: decoding
fails exactly when the first byte of the encoding is 1, and a decoded point
is never the identity. -/
def cexDecBad : List Nat → Option Bool :=
  fun buf => if buf.headI = 1 then none else some false

/-- Concrete stand-in codec that accepts every encoding as a non-identity
point. -/
def cexDecOk : List Nat → Option Bool := fun _ => some false

/-- Output-shaped file for target power 0 (64-byte header + 672-byte body)
whose very first point of section `tau_powers_g1` fails to decode under
`cexDecBad`. -/
def cexFile1 : List Nat := List.replicate 64 0 ++ (1 :: List.replicate 671 0)

/-- Output-shaped file for target power 0 whose sections `tau_powers_g1` and
`tau_powers_g2` are clean under `cexDecBad` but whose first point of section
`alpha_tau_powers_g1` (body offset 288) fails to decode. -/
def cexFile2 : List Nat := List.replicate 352 0 ++ (1 :: List.replicate 383 0)

/-- All-zero well-formed challenge file of power 10, the smallest detectable
size: 64 + 589920 bytes. -/
def wChallenge : List Nat := List.replicate 589984 0

instance instDecEqExcept {ε α : Type} [DecidableEq ε] [DecidableEq α] :
    DecidableEq (Except ε α)
  | .ok a, .ok b =>
    if h : a = b then .isTrue (by rw [h]) else .isFalse (by simp [h])
  | .ok _, .error _ => .isFalse (by simp)
  | .error _, .ok _ => .isFalse (by simp)
  | .error a, .error b =>
    if h : a = b then .isTrue (by rw [h]) else .isFalse (by simp [h])

theorem tau_length_eq (p : Nat) : tau_length p = 2 ^ p := by
  simp [tau_length, Nat.shiftLeft_eq]

theorem tau_g1_length_eq (p : Nat) : tau_g1_length p = 2 * 2 ^ p - 1 := by
  simp [tau_g1_length, tau_length_eq, Nat.shiftLeft_eq]
  omega

theorem tau_length_pos (p : Nat) : 1 ≤ tau_length p := by
  rw [tau_length_eq]; exact Nat.one_le_two_pow

theorem tau_g1_length_pos (p : Nat) : 1 ≤ tau_g1_length p := by
  rw [tau_g1_length_eq]
  have := Nat.one_le_two_pow (n := p)
  omega

theorem tau_length_mono {p q : Nat} (h : p ≤ q) :
    tau_length p ≤ tau_length q := by
  rw [tau_length_eq, tau_length_eq]
  exact Nat.pow_le_pow_right (by omega) h

theorem tau_g1_length_mono {p q : Nat} (h : p ≤ q) :
    tau_g1_length p ≤ tau_g1_length q := by
  rw [tau_g1_length_eq, tau_g1_length_eq]
  have h2 : (2 : Nat) ^ p ≤ 2 ^ q := Nat.pow_le_pow_right (by omega) h
  omega

theorem expected_accumulator_bytes_eq (p : Nat) :
    expected_accumulator_bytes p = 576 * 2 ^ p + 96 := by
  have h1 : 1 ≤ 2 ^ p := Nat.one_le_two_pow
  simp [expected_accumulator_bytes, tau_g1_length_eq, tau_length_eq,
    G1_UNCOMPRESSED_BYTE_SIZE, G2_UNCOMPRESSED_BYTE_SIZE]
  omega

theorem expected_strict_mono {p q : Nat} (h : p < q) :
    expected_accumulator_bytes p < expected_accumulator_bytes q := by
  rw [expected_accumulator_bytes_eq, expected_accumulator_bytes_eq]
  have h2 : (2 : Nat) ^ p < 2 ^ q := Nat.pow_lt_pow_right (by omega) h
  omega

theorem expected_mono {p q : Nat} (h : p ≤ q) :
    expected_accumulator_bytes p ≤ expected_accumulator_bytes q := by
  rcases Nat.lt_or_ge p q with h' | h'
  · exact Nat.le_of_lt (expected_strict_mono h')
  · have : p = q := by omega
    subst this; exact Nat.le_refl _

theorem expected_lt_usize (p : Nat) (h : p ≤ 27) :
    expected_accumulator_bytes p < USIZE := by
  have h1 := expected_mono h
  have h2 : expected_accumulator_bytes 27 < USIZE := by decide
  omega

theorem detect_expected {c : Nat} (h1 : 10 ≤ c) (h2 : c ≤ 27) :
    detect_power_from_size (expected_accumulator_bytes c) = some c := by
  interval_cases c <;> decide

theorem detect_none {n : Nat}
    (h : ∀ p, 10 ≤ p → p ≤ 27 → expected_accumulator_bytes p ≠ n) :
    detect_power_from_size n = none := by
  apply List.find?_eq_none.mpr
  intro p hp
  have hm : 10 ≤ p ∧ p < 28 := by
    have := List.mem_range'_1.mp hp
    omega
  simp only [beq_iff_eq]
  exact h p hm.1 (by omega)

theorem wrapSub_of_ge {a : Nat} (h64 : 64 ≤ a) (hlt : a < USIZE) :
    wrapSub a 64 = a - 64 := by
  have hU : (64 : Nat) ≤ USIZE := by decide
  have : a + (USIZE - 64) = (a - 64) + USIZE := by omega
  rw [wrapSub, this, Nat.add_mod_right, Nat.mod_eq_of_lt (by omega)]

theorem read_exact_of_le {s : List Nat} {n : Nat} (h : n ≤ s.length) :
    read_exact s n = some (s.take n, s.drop n) := by
  simp [read_exact, h]

theorem stream_copy_points_eq {s : List Nat} {count w : Nat}
    (h : count * w ≤ s.length) :
    stream_copy_points s count w = some (s.take (count * w), s.drop (count * w)) := by
  induction count generalizing s with
  | zero => simp [stream_copy_points]
  | succ c ih =>
    have hsm : (c + 1) * w = c * w + w := Nat.succ_mul c w
    have hw : w ≤ s.length := by omega
    have hrec : c * w ≤ (s.drop w).length := by
      rw [List.length_drop]; omega
    simp only [stream_copy_points, read_exact_of_le hw, ih hrec]
    have hd : (s.drop w).drop (c * w) = s.drop ((c + 1) * w) := by
      rw [List.drop_drop]; congr 1; omega
    have ht : s.take w ++ (s.drop w).take (c * w) = s.take ((c + 1) * w) := by
      rw [← List.take_add]; congr 1; omega
    rw [hd, ht]

theorem skip_points_eq {s : List Nat} {count w : Nat}
    (h : count * w ≤ s.length) :
    skip_points s count w = some (s.drop (count * w)) := by
  induction count generalizing s with
  | zero => simp [skip_points]
  | succ c ih =>
    have hsm : (c + 1) * w = c * w + w := Nat.succ_mul c w
    have hw : w ≤ s.length := by omega
    have hrec : c * w ≤ (s.drop w).length := by
      rw [List.length_drop]; omega
    simp only [skip_points, read_exact_of_le hw, ih hrec]
    rw [List.drop_drop]
    congr 2
    omega

theorem process_section_eq {s : List Nat} {copyCount skipCount w : Nat}
    (h : copyCount * w + skipCount * w ≤ s.length) :
    process_section s copyCount skipCount w =
      some (s.take (copyCount * w), s.drop (copyCount * w + skipCount * w)) := by
  have hc : copyCount * w ≤ s.length := by omega
  rw [process_section, stream_copy_points_eq hc]
  by_cases hz : skipCount > 0
  · have hs : skipCount * w ≤ (s.drop (copyCount * w)).length := by
      rw [List.length_drop]; omega
    simp only [hz, if_true, skip_points_eq hs, List.drop_drop]
  · have hz0 : skipCount = 0 := by omega
    subst hz0
    simp

theorem reduce_spec {input : List Nat} {c t : Nat} (h10 : 10 ≤ c)
    (hc27 : c ≤ 27) (ht : t ≤ c)
    (hin : input.length = 64 + expected_accumulator_bytes c) :
    reduce input false t = .ok (reduceOutput input c t) := by
  have hg1 : tau_g1_length t ≤ tau_g1_length c := tau_g1_length_mono ht
  have htl : tau_length t ≤ tau_length c := tau_length_mono ht
  have e_def : expected_accumulator_bytes c =
      tau_g1_length c * 96 + tau_length c * 192 + tau_length c * 96 +
        tau_length c * 96 + 192 := rfl
  have hUbig : 64 + expected_accumulator_bytes c < USIZE := by
    have h1 := expected_mono hc27
    have h2 : 64 + expected_accumulator_bytes 27 < USIZE := by decide
    omega
  have hws : wrapSub input.length 64 = expected_accumulator_bytes c := by
    rw [hin, wrapSub_of_ge (by omega) (by omega)]
    omega
  have hlen64 : (64 : Nat) ≤ input.length := by omega
  have hbody : (input.drop 64).length = expected_accumulator_bytes c := by
    rw [List.length_drop]; omega
  have hsec1 : process_section (input.drop 64) (tau_g1_length t)
      (tau_g1_length c - tau_g1_length t) G1_UNCOMPRESSED_BYTE_SIZE =
      some ((input.drop 64).take (tau_g1_length t * 96),
            (input.drop 64).drop (tau_g1_length c * 96)) := by
    show process_section (input.drop 64) (tau_g1_length t)
      (tau_g1_length c - tau_g1_length t) 96 = _
    rw [process_section_eq (by omega)]
    rw [show tau_g1_length t * 96 + (tau_g1_length c - tau_g1_length t) * 96 =
      tau_g1_length c * 96 from by omega]
  have hsec2 : process_section ((input.drop 64).drop (tau_g1_length c * 96))
      (tau_length t) (tau_length c - tau_length t)
      G2_UNCOMPRESSED_BYTE_SIZE =
      some (((input.drop 64).drop (tau_g1_length c * 96)).take
              (tau_length t * 192),
            (input.drop 64).drop
              (tau_g1_length c * 96 + tau_length c * 192)) := by
    show process_section _ (tau_length t) (tau_length c - tau_length t) 192 = _
    rw [process_section_eq (by rw [List.length_drop]; omega)]
    rw [show tau_length t * 192 + (tau_length c - tau_length t) * 192 =
      tau_length c * 192 from by omega]
    rw [show ((input.drop 64).drop (tau_g1_length c * 96)).drop
        (tau_length c * 192) =
      (input.drop 64).drop (tau_g1_length c * 96 + tau_length c * 192) from by
        rw [List.drop_drop]]
  have hsec3 : process_section ((input.drop 64).drop
        (tau_g1_length c * 96 + tau_length c * 192))
      (tau_length t) (tau_length c - tau_length t)
      G1_UNCOMPRESSED_BYTE_SIZE =
      some (((input.drop 64).drop
              (tau_g1_length c * 96 + tau_length c * 192)).take
              (tau_length t * 96),
            (input.drop 64).drop
              (tau_g1_length c * 96 + tau_length c * 192 +
                tau_length c * 96)) := by
    show process_section _ (tau_length t) (tau_length c - tau_length t) 96 = _
    rw [process_section_eq (by rw [List.length_drop]; omega)]
    rw [show tau_length t * 96 + (tau_length c - tau_length t) * 96 =
      tau_length c * 96 from by omega]
    rw [show ((input.drop 64).drop
        (tau_g1_length c * 96 + tau_length c * 192)).drop
        (tau_length c * 96) =
      (input.drop 64).drop
        (tau_g1_length c * 96 + tau_length c * 192 + tau_length c * 96)
      from by rw [List.drop_drop]]
  have hsec4 : process_section ((input.drop 64).drop
        (tau_g1_length c * 96 + tau_length c * 192 + tau_length c * 96))
      (tau_length t) (tau_length c - tau_length t)
      G1_UNCOMPRESSED_BYTE_SIZE =
      some (((input.drop 64).drop
              (tau_g1_length c * 96 + tau_length c * 192 +
                tau_length c * 96)).take (tau_length t * 96),
            (input.drop 64).drop
              (tau_g1_length c * 96 + tau_length c * 192 + tau_length c * 96 +
                tau_length c * 96)) := by
    show process_section _ (tau_length t) (tau_length c - tau_length t) 96 = _
    rw [process_section_eq (by rw [List.length_drop]; omega)]
    rw [show tau_length t * 96 + (tau_length c - tau_length t) * 96 =
      tau_length c * 96 from by omega]
    rw [show ((input.drop 64).drop
        (tau_g1_length c * 96 + tau_length c * 192 + tau_length c * 96)).drop
        (tau_length c * 96) =
      (input.drop 64).drop
        (tau_g1_length c * 96 + tau_length c * 192 + tau_length c * 96 +
          tau_length c * 96)
      from by rw [List.drop_drop]]
  have hsec5 : process_section ((input.drop 64).drop
        (tau_g1_length c * 96 + tau_length c * 192 + tau_length c * 96 +
          tau_length c * 96)) 1 0 G2_UNCOMPRESSED_BYTE_SIZE =
      some (((input.drop 64).drop
              (tau_g1_length c * 96 + tau_length c * 192 + tau_length c * 96 +
                tau_length c * 96)).take 192,
            ((input.drop 64).drop
              (tau_g1_length c * 96 + tau_length c * 192 + tau_length c * 96 +
                tau_length c * 96)).drop (1 * 192 + 0 * 192)) := by
    show process_section _ 1 0 192 = _
    rw [process_section_eq (by rw [List.length_drop]; omega)]
  unfold reduce
  rw [if_neg (show ¬ t > 27 from by omega)]
  rw [hws, detect_expected h10 hc27]
  simp only []
  rw [if_neg (show ¬ t > c from by omega)]
  rw [if_neg (show ¬ (false = true) from by simp)]
  rw [read_exact_of_le hlen64]
  simp only []
  rw [hsec1]
  simp only []
  rw [hsec2]
  simp only []
  rw [hsec3]
  simp only []
  rw [hsec4]
  simp only []
  rw [hsec5]
  simp only []
  rfl

theorem take_drop_glue (l : List Nat) (a b : Nat) :
    (l.drop a).take b ++ l.drop (a + b) = l.drop a := by
  have h : l.drop (a + b) = (l.drop a).drop b := by rw [List.drop_drop]
  rw [h, List.take_append_drop]

theorem drop_append_len (l₁ l₂ : List Nat) (k : Nat) :
    (l₁ ++ l₂).drop (l₁.length + k) = l₂.drop k := by
  rw [← List.drop_drop, List.drop_left]

theorem reduceOutput_length {input : List Nat} {c t : Nat}
    (ht : t ≤ c)
    (hin : input.length = 64 + expected_accumulator_bytes c) :
    (reduceOutput input c t).length = 64 + expected_accumulator_bytes t := by
  have hg1 : tau_g1_length t ≤ tau_g1_length c := tau_g1_length_mono ht
  have htl : tau_length t ≤ tau_length c := tau_length_mono ht
  have ec_def : expected_accumulator_bytes c =
      tau_g1_length c * 96 + tau_length c * 192 + tau_length c * 96 +
        tau_length c * 96 + 192 := rfl
  have et_def : expected_accumulator_bytes t =
      tau_g1_length t * 96 + tau_length t * 192 + tau_length t * 96 +
        tau_length t * 96 + 192 := rfl
  simp only [reduceOutput, List.length_append, List.length_take,
    List.length_drop]
  omega

theorem reduceOutput_take64 {input : List Nat} {c t : Nat}
    (hlen : 64 ≤ input.length) :
    (reduceOutput input c t).take 64 = input.take 64 := by
  have h64 : (input.take 64).length = 64 := by
    rw [List.length_take]; omega
  simp only [reduceOutput, List.append_assoc]
  rw [List.take_append_of_le_length (by omega), List.take_take]
  congr 1

theorem reduceOutput_self {input : List Nat} {c : Nat}
    (hin : input.length = 64 + expected_accumulator_bytes c) :
    reduceOutput input c c = input := by
  have ec_def : expected_accumulator_bytes c =
      tau_g1_length c * 96 + tau_length c * 192 + tau_length c * 96 +
        tau_length c * 96 + 192 := rfl
  have hb5 : ((input.drop 64).drop
      (tau_g1_length c * 96 + tau_length c * 192 + tau_length c * 96 +
        tau_length c * 96)).take 192 =
      (input.drop 64).drop
        (tau_g1_length c * 96 + tau_length c * 192 + tau_length c * 96 +
          tau_length c * 96) := by
    apply List.take_of_length_le
    rw [List.length_drop, List.length_drop]
    omega
  simp only [reduceOutput, List.append_assoc]
  rw [hb5, take_drop_glue, take_drop_glue, take_drop_glue]
  rw [List.take_append_drop, List.take_append_drop]

theorem drop_append_exact (l₁ l₂ : List Nat) (n k : Nat) (h : l₁.length = n) :
    (l₁ ++ l₂).drop (n + k) = l₂.drop k := by
  subst h
  exact drop_append_len l₁ l₂ k

theorem drop_exact (l₁ l₂ : List Nat) (n : Nat) (h : l₁.length = n) :
    (l₁ ++ l₂).drop n = l₂ := by
  subst h
  exact List.drop_left l₁ l₂

theorem take_exact (l₁ l₂ : List Nat) (n : Nat) (h : l₁.length = n) :
    (l₁ ++ l₂).take n = l₁ := by
  subst h
  exact List.take_left l₁ l₂

theorem secCounts_pos {t : Nat} (i : Nat) (hi : i < 5) : 1 ≤ secCounts t i := by
  interval_cases i
  · exact tau_g1_length_pos t
  · exact tau_length_pos t
  · exact tau_length_pos t
  · exact tau_length_pos t
  · exact Nat.le_refl 1

theorem sections_of_reduceOutput {input : List Nat} {c t : Nat}
    (ht : t ≤ c)
    (hin : input.length = 64 + expected_accumulator_bytes c) :
    ∀ i, i < 5 → sectionOf ((reduceOutput input c t).drop 64) t i =
      (sectionOf (input.drop 64) c i).take (secBytes t i) := by
  have hg1 : tau_g1_length t ≤ tau_g1_length c := tau_g1_length_mono ht
  have htl : tau_length t ≤ tau_length c := tau_length_mono ht
  have ec_def : expected_accumulator_bytes c =
      tau_g1_length c * 96 + tau_length c * 192 + tau_length c * 96 +
        tau_length c * 96 + 192 := rfl
  have h64 : (input.take 64).length = 64 := by
    rw [List.length_take]; omega
  have hL1 : ((input.drop 64).take (tau_g1_length t * 96)).length =
      tau_g1_length t * 96 := by
    rw [List.length_take, List.length_drop]; omega
  have hL2 : (((input.drop 64).drop (tau_g1_length c * 96)).take
      (tau_length t * 192)).length = tau_length t * 192 := by
    rw [List.length_take, List.length_drop, List.length_drop]; omega
  have hL3 : (((input.drop 64).drop
      (tau_g1_length c * 96 + tau_length c * 192)).take
      (tau_length t * 96)).length = tau_length t * 96 := by
    rw [List.length_take, List.length_drop, List.length_drop]; omega
  have hL4 : (((input.drop 64).drop
      (tau_g1_length c * 96 + tau_length c * 192 + tau_length c * 96)).take
      (tau_length t * 96)).length = tau_length t * 96 := by
    rw [List.length_take, List.length_drop, List.length_drop]; omega
  have hout : (reduceOutput input c t).drop 64 =
      (input.drop 64).take (tau_g1_length t * 96) ++
      (((input.drop 64).drop (tau_g1_length c * 96)).take
        (tau_length t * 192) ++
      (((input.drop 64).drop
        (tau_g1_length c * 96 + tau_length c * 192)).take
        (tau_length t * 96) ++
      (((input.drop 64).drop
        (tau_g1_length c * 96 + tau_length c * 192 + tau_length c * 96)).take
        (tau_length t * 96) ++
      ((input.drop 64).drop
        (tau_g1_length c * 96 + tau_length c * 192 + tau_length c * 96 +
          tau_length c * 96)).take 192))) := by
    simp only [reduceOutput, List.append_assoc]
    exact drop_exact _ _ 64 h64
  intro i hi
  interval_cases i
  · show ((reduceOutput input c t).drop 64).take (tau_g1_length t * 96) =
      ((input.drop 64).take (tau_g1_length c * 96)).take (tau_g1_length t * 96)
    rw [hout, take_exact _ _ _ hL1, List.take_take]
    congr 1
    omega
  · show (((reduceOutput input c t).drop 64).drop
        (tau_g1_length t * 96)).take (tau_length t * 192) =
      (((input.drop 64).drop (tau_g1_length c * 96)).take
        (tau_length c * 192)).take (tau_length t * 192)
    rw [hout, drop_exact _ _ _ hL1, take_exact _ _ _ hL2, List.take_take]
    congr 1
    omega
  · show (((reduceOutput input c t).drop 64).drop
        (tau_g1_length t * 96 + tau_length t * 192)).take
        (tau_length t * 96) =
      (((input.drop 64).drop
        (tau_g1_length c * 96 + tau_length c * 192)).take
        (tau_length c * 96)).take (tau_length t * 96)
    rw [hout, drop_append_exact _ _ _ _ hL1, drop_exact _ _ _ hL2,
      take_exact _ _ _ hL3, List.take_take]
    congr 1
    omega
  · show (((reduceOutput input c t).drop 64).drop
        (tau_g1_length t * 96 + tau_length t * 192 + tau_length t * 96)).take
        (tau_length t * 96) =
      (((input.drop 64).drop
        (tau_g1_length c * 96 + tau_length c * 192 + tau_length c * 96)).take
        (tau_length c * 96)).take (tau_length t * 96)
    rw [hout, Nat.add_assoc, drop_append_exact _ _ _ _ hL1,
      drop_append_exact _ _ _ _ hL2, drop_exact _ _ _ hL3,
      take_exact _ _ _ hL4, List.take_take]
    congr 1
    omega
  · show (((reduceOutput input c t).drop 64).drop
        (tau_g1_length t * 96 + tau_length t * 192 + tau_length t * 96 +
          tau_length t * 96)).take 192 =
      (((input.drop 64).drop
        (tau_g1_length c * 96 + tau_length c * 192 + tau_length c * 96 +
          tau_length c * 96)).take 192).take 192
    rw [hout, Nat.add_assoc, Nat.add_assoc, drop_append_exact _ _ _ _ hL1,
      drop_append_exact _ _ _ _ hL2, drop_append_exact _ _ _ _ hL3,
      drop_exact _ _ _ hL4, List.take_take]

/-- Claim C1 (amended): for every current power `c` in `10..=27` and target
`t ≤ c`, reducing a well-formed accumulator file of power `c` to target `t`
succeeds, and the output file's byte length equals
`64 + expected_accumulator_bytes t` (the copied 64-byte header plus the
target-power accumulator body) with its first 64 header bytes byte-identical
to the input's first 64 bytes.  The claim's stated length
`expected_accumulator_bytes t` omits the 64 header bytes. -/
theorem reduce_length_header {input : List Nat} {c t : Nat} (h10 : 10 ≤ c)
    (hc27 : c ≤ 27) (ht : t ≤ c)
    (hin : input.length = 64 + expected_accumulator_bytes c) :
    ∃ out, reduce input false t = .ok out ∧
      out.length = 64 + expected_accumulator_bytes t ∧
      out.take 64 = input.take 64 :=
  ⟨reduceOutput input c t, reduce_spec h10 hc27 ht hin,
   reduceOutput_length ht hin, reduceOutput_take64 (by omega)⟩

/-- Claim C1 counterexample: at current power 10 and target power 10 the
reduction succeeds and returns the whole input file, whose byte length is
`64 + expected_accumulator_bytes 10`, not `expected_accumulator_bytes 10` as
the claim states. -/
theorem reduce_length_cex :
    reduce wChallenge false 10 = .ok wChallenge ∧
    wChallenge.length ≠ expected_accumulator_bytes 10 := by
  have hin : wChallenge.length = 64 + expected_accumulator_bytes 10 := by
    rw [wChallenge, List.length_replicate]
    decide
  constructor
  · rw [@reduce_spec wChallenge 10 10 (by decide) (by decide) (by decide) hin,
      reduceOutput_self hin]
  · rw [hin]
    decide

/-- Claim C1 witness: the amended claim instantiated at the all-zero
power-10 challenge file with target power 10. -/
theorem reduce_length_header_witness :
    wChallenge.length = 64 + expected_accumulator_bytes 10 ∧
    (∃ out, reduce wChallenge false 10 = .ok out ∧
      out.length = 64 + expected_accumulator_bytes 10 ∧
      out.take 64 = wChallenge.take 64) :=
  ⟨by rw [wChallenge, List.length_replicate]; decide,
   @reduce_length_header wChallenge 10 10 (by decide) (by decide) (by decide)
     (by rw [wChallenge, List.length_replicate]; decide)⟩

/-- Claim C2: for every valid pair `c`, `t ≤ c`, each of the five sections of
the reduced output equals the leading `secBytes t i`-byte prefix of the
corresponding input section (no reordering or sampling); in particular the
first point of every output section is byte-identical to the first point of
the corresponding input section. -/
theorem reduce_sections_of_input {input : List Nat} {c t : Nat}
    (h10 : 10 ≤ c) (hc27 : c ≤ 27) (ht : t ≤ c)
    (hin : input.length = 64 + expected_accumulator_bytes c) :
    ∃ out, reduce input false t = .ok out ∧
      ∀ i, i < 5 →
        sectionOf (out.drop 64) t i =
          (sectionOf (input.drop 64) c i).take (secBytes t i) ∧
        sectionOf (out.drop 64) t i <+: sectionOf (input.drop 64) c i ∧
        (sectionOf (out.drop 64) t i).take (kindWidth (secKindN i)) =
          (sectionOf (input.drop 64) c i).take (kindWidth (secKindN i)) := by
  refine ⟨reduceOutput input c t, reduce_spec h10 hc27 ht hin,
    fun i hi => ?_⟩
  have h1 := sections_of_reduceOutput ht hin i hi
  have hwle : kindWidth (secKindN i) ≤ secBytes t i := by
    have hpos := secCounts_pos (t := t) i hi
    calc kindWidth (secKindN i) = 1 * kindWidth (secKindN i) :=
          (one_mul _).symm
      _ ≤ secCounts t i * kindWidth (secKindN i) :=
          Nat.mul_le_mul_right _ hpos
      _ = secBytes t i := rfl
  refine ⟨h1, ?_, ?_⟩
  · rw [h1]
    exact ⟨_, List.take_append_drop _ _⟩
  · rw [h1, List.take_take]
    congr 1
    exact min_eq_left hwle

/-- Claim C2 witness: the claim instantiated at the all-zero power-10
challenge file with target power 10. -/
theorem reduce_sections_of_input_witness :
    wChallenge.length = 64 + expected_accumulator_bytes 10 ∧
    (∃ out, reduce wChallenge false 10 = .ok out ∧
      ∀ i, i < 5 →
        sectionOf (out.drop 64) 10 i =
          (sectionOf (wChallenge.drop 64) 10 i).take (secBytes 10 i) ∧
        sectionOf (out.drop 64) 10 i <+: sectionOf (wChallenge.drop 64) 10 i ∧
        (sectionOf (out.drop 64) 10 i).take (kindWidth (secKindN i)) =
          (sectionOf (wChallenge.drop 64) 10 i).take
            (kindWidth (secKindN i))) :=
  ⟨by rw [wChallenge, List.length_replicate]; decide,
   @reduce_sections_of_input wChallenge 10 10 (by decide) (by decide)
     (by decide) (by rw [wChallenge, List.length_replicate]; decide)⟩

/-- Claim C6: reducing a well-formed input of power `c` with target power
equal to `c` yields an output byte-identical to the input file. -/
theorem reduce_same_power_identity {input : List Nat} {c : Nat}
    (h10 : 10 ≤ c) (hc27 : c ≤ 27)
    (hin : input.length = 64 + expected_accumulator_bytes c) :
    reduce input false c = .ok input := by
  rw [@reduce_spec input c c h10 hc27 (Nat.le_refl c) hin,
    reduceOutput_self hin]

/-- Claim C6 witness: idempotence at the all-zero power-10 challenge file. -/
theorem reduce_same_power_identity_witness :
    wChallenge.length = 64 + expected_accumulator_bytes 10 ∧
    reduce wChallenge false 10 = .ok wChallenge :=
  ⟨by rw [wChallenge, List.length_replicate]; decide,
   @reduce_same_power_identity wChallenge 10 (by decide) (by decide)
     (by rw [wChallenge, List.length_replicate]; decide)⟩

theorem reduce_detect_none {input : List Nat} {t : Nat}
    (hdn : detect_power_from_size (wrapSub input.length 64) = none) :
    (t ≤ 27 → ∀ b : Bool, reduce input b t = .error .unsupportedSize) ∧
    ∀ (b : Bool) (out : List Nat), reduce input b t ≠ .ok out := by
  constructor
  · intro ht b
    unfold reduce
    rw [if_neg (show ¬ t > 27 from by omega), hdn]
  · intro b out hok
    unfold reduce at hok
    by_cases h27 : t > 27
    · rw [if_pos h27] at hok
      exact Except.noConfusion hok
    · rw [if_neg h27, hdn] at hok
      exact Except.noConfusion hok

theorem reduce_true_no_ok :
    ∀ (inp : List Nat) (t2 : Nat) (out : List Nat),
      reduce inp true t2 ≠ .ok out := by
  intro inp t2 out hok
  unfold reduce at hok
  by_cases h27 : t2 > 27
  · rw [if_pos h27] at hok
    exact Except.noConfusion hok
  · rw [if_neg h27] at hok
    cases hdet : detect_power_from_size (wrapSub inp.length 64) with
    | none =>
      rw [hdet] at hok
      exact Except.noConfusion hok
    | some cp =>
      rw [hdet] at hok
      simp only [] at hok
      by_cases hcp : t2 > cp
      · rw [if_pos hcp] at hok
        exact Except.noConfusion hok
      · rw [if_neg hcp, if_pos trivial] at hok
        exact Except.noConfusion hok

/-- Claim C7 (amended): for every input whose detected current power is `c`,
invoking the reducer with `c < target_power ≤ 27` fails with the
TargetTooLarge error, whatever the state of the output path (no output is
opened or written); a target power above 27 instead fails with the earlier
usage error. -/
theorem reduce_target_too_large {input : List Nat} {c t : Nat}
    (hdet : detect_power_from_size (wrapSub input.length 64) = some c)
    (hc : c < t) (ht : t ≤ 27) :
    ∀ b : Bool, reduce input b t = .error .targetTooLarge := by
  intro b
  unfold reduce
  rw [if_neg (show ¬ t > 27 from by omega), hdet]
  simp only []
  rw [if_pos (show t > c from hc)]

/-- Claim C7 counterexample: the power-10 input with target power 28 (which
is greater than the detected power 10) fails with the usage error, not with
TargetTooLarge as the claim states. -/
theorem reduce_target_too_large_cex :
    wChallenge.length = 64 + expected_accumulator_bytes 10 ∧
    detect_power_from_size (expected_accumulator_bytes 10) = some 10 ∧
    reduce wChallenge false 28 = .error .usageError ∧
    ReduceError.usageError ≠ ReduceError.targetTooLarge := by
  refine ⟨by rw [wChallenge, List.length_replicate]; decide, by decide,
    rfl, by decide⟩

/-- Claim C7 witness: the amended claim at the power-10 file with target
power 11. -/
theorem reduce_target_too_large_witness :
    detect_power_from_size (wrapSub wChallenge.length 64) = some 10 ∧
    (10 : Nat) < 11 ∧ (11 : Nat) ≤ 27 ∧
    ∀ b : Bool, reduce wChallenge b 11 = .error .targetTooLarge := by
  have hdet : detect_power_from_size (wrapSub wChallenge.length 64) =
      some 10 := by
    rw [wChallenge, List.length_replicate]
    decide
  exact ⟨hdet, by decide, by decide,
    @reduce_target_too_large wChallenge 10 11 hdet (by decide) (by decide)⟩

/-- Claim C8 (amended): an invocation that passes the usage, size-detection
and target-power checks and finds a file already at the output path fails
with the OutputExists error; moreover no invocation with an existing output
file ever returns an output (the `create_new` open fails before any byte is
written, so the existing file is never modified). -/
theorem reduce_output_exists {input : List Nat} {c t : Nat} (ht : t ≤ 27)
    (hdet : detect_power_from_size (wrapSub input.length 64) = some c)
    (htc : t ≤ c) :
    reduce input true t = .error .outputExists ∧
    ∀ (inp : List Nat) (t2 : Nat) (out : List Nat),
      reduce inp true t2 ≠ .ok out := by
  constructor
  · unfold reduce
    rw [if_neg (show ¬ t > 27 from by omega), hdet]
    simp only []
    rw [if_neg (show ¬ t > c from by omega), if_pos trivial]
  · exact reduce_true_no_ok

/-- Claim C8 counterexample: an invocation with a file already at the output
path but an undetectable input size fails with UnsupportedSize, not with
OutputExists as the universally stated claim requires. -/
theorem reduce_output_exists_cex :
    reduce [] true 5 = .error .unsupportedSize ∧
    ReduceError.unsupportedSize ≠ ReduceError.outputExists := by
  exact ⟨rfl, by decide⟩

/-- Claim C8 witness: the amended claim at the power-10 file with target
power 10 and an existing output file. -/
theorem reduce_output_exists_witness :
    detect_power_from_size (wrapSub wChallenge.length 64) = some 10 ∧
    (reduce wChallenge true 10 = .error .outputExists ∧
     ∀ (inp : List Nat) (t2 : Nat) (out : List Nat),
       reduce inp true t2 ≠ .ok out) := by
  have hdet : detect_power_from_size (wrapSub wChallenge.length 64) =
      some 10 := by
    rw [wChallenge, List.length_replicate]
    decide
  exact ⟨hdet, @reduce_output_exists wChallenge 10 10 (by decide) hdet
    (by decide)⟩

/-- Claim C9: when the accumulator size (file size minus 64, in wrapping
`usize` arithmetic) matches no supported power, the detector fails, and the
run aborts with UnsupportedSize before the output path is consulted (the
result is the same for both output-path states), so no output is produced. -/
theorem detect_fail_aborts {input : List Nat} (t : Nat)
    (h : ∀ p, 10 ≤ p → p ≤ 27 →
      expected_accumulator_bytes p ≠ wrapSub input.length 64) :
    detect_power_from_size (wrapSub input.length 64) = none ∧
    (t ≤ 27 → ∀ b : Bool, reduce input b t = .error .unsupportedSize) ∧
    ∀ (b : Bool) (out : List Nat), reduce input b t ≠ .ok out := by
  have hdn := detect_none h
  exact ⟨hdn, (reduce_detect_none hdn).1, (reduce_detect_none hdn).2⟩

/-- Claim C9 witness: the empty input file, whose wrapped accumulator size
`2^64 - 64` matches no supported power. -/
theorem detect_fail_aborts_witness :
    (∀ p, 10 ≤ p → p ≤ 27 →
      expected_accumulator_bytes p ≠ wrapSub ([] : List Nat).length 64) ∧
    (detect_power_from_size (wrapSub ([] : List Nat).length 64) = none ∧
     ((5 : Nat) ≤ 27 → ∀ b : Bool,
       reduce [] b 5 = .error .unsupportedSize) ∧
     ∀ (b : Bool) (out : List Nat), reduce [] b 5 ≠ .ok out) := by
  have h : ∀ p, 10 ≤ p → p ≤ 27 →
      expected_accumulator_bytes p ≠ wrapSub ([] : List Nat).length 64 := by
    intro p h1 h2
    have hm := expected_mono h2
    have h27 : expected_accumulator_bytes 27 = 77309411424 := by decide
    have hw : wrapSub ([] : List Nat).length 64 = 18446744073709551552 := by
      decide
    omega
  exact ⟨h, detect_fail_aborts 5 h⟩

/-- Claim C10: for an input file shorter than 64 bytes, the unguarded
`usize` subtraction `file_size - 64` wraps around to at least `2^64 - 64`,
power detection necessarily fails, and the program aborts without creating
an output file. -/
theorem short_file_underflow {input : List Nat} (t : Nat)
    (h : input.length < 64) :
    2 ^ 64 - 64 ≤ wrapSub input.length 64 ∧
    detect_power_from_size (wrapSub input.length 64) = none ∧
    (t ≤ 27 → ∀ b : Bool, reduce input b t = .error .unsupportedSize) ∧
    ∀ (b : Bool) (out : List Nat), reduce input b t ≠ .ok out := by
  have h2 : USIZE = 18446744073709551616 := by decide
  have hgoal : wrapSub input.length 64 = input.length + (USIZE - 64) := by
    rw [wrapSub, Nat.mod_eq_of_lt (by omega)]
  have h3 : (2 : Nat) ^ 64 = 18446744073709551616 := by decide
  have hbig : 2 ^ 64 - 64 ≤ wrapSub input.length 64 := by
    rw [hgoal]; omega
  have hdn : detect_power_from_size (wrapSub input.length 64) = none := by
    apply detect_none
    intro p h1 h2p
    have hm := expected_mono h2p
    have h27 : expected_accumulator_bytes 27 = 77309411424 := by decide
    omega
  exact ⟨hbig, hdn, (reduce_detect_none hdn).1, (reduce_detect_none hdn).2⟩

/-- Claim C10 witness: a 3-byte input file aborts with UnsupportedSize after
the wrapped subtraction. -/
theorem short_file_underflow_witness :
    ([1, 2, 3] : List Nat).length < 64 ∧
    (2 ^ 64 - 64 ≤ wrapSub ([1, 2, 3] : List Nat).length 64 ∧
     detect_power_from_size (wrapSub ([1, 2, 3] : List Nat).length 64) =
       none ∧
     ((0 : Nat) ≤ 27 → ∀ b : Bool,
       reduce [1, 2, 3] b 0 = .error .unsupportedSize) ∧
     ∀ (b : Bool) (out : List Nat), reduce [1, 2, 3] b 0 ≠ .ok out) :=
  ⟨by decide, @short_file_underflow [1, 2, 3] 0 (by decide)⟩

/-- Claim C3: over the supported range `10..=27`, the expected accumulator
size is strictly increasing in the power, and the power detector maps the
expected size of each supported power back to that power. -/
theorem expected_strict_mono_detect_roundtrip {p : Nat} (hp1 : 10 ≤ p)
    (hp2 : p ≤ 27) :
    (∀ q, 10 ≤ q → q < p →
      expected_accumulator_bytes q < expected_accumulator_bytes p) ∧
    detect_power_from_size (expected_accumulator_bytes p) = some p :=
  ⟨fun _ _ hq => expected_strict_mono hq, detect_expected hp1 hp2⟩

/-- Claim C3 witness: the round-trip law at power 27. -/
theorem expected_strict_mono_detect_roundtrip_witness :
    (10 : Nat) ≤ 27 ∧
    ((∀ q, 10 ≤ q → q < 27 →
      expected_accumulator_bytes q < expected_accumulator_bytes 27) ∧
     detect_power_from_size (expected_accumulator_bytes 27) = some 27) :=
  ⟨by decide, @expected_strict_mono_detect_roundtrip 27 (by decide) (by decide)⟩

theorem verify_points_ok (dec : List Nat → Option Bool) (kind : PKind) :
    ∀ (count : Nat) (s : List Nat) (start : Nat),
      count * kindWidth kind ≤ s.length →
      pointsOk dec (kindWidth kind) s count →
      verify_points dec kind s start count =
        .ok (s.drop (count * kindWidth kind)) := by
  intro count
  induction count with
  | zero =>
    intro s start _ _
    simp [verify_points]
  | succ c ih =>
    intro s start hlen h
    have hsm : (c + 1) * kindWidth kind =
        c * kindWidth kind + kindWidth kind := Nat.succ_mul _ _
    have hw : kindWidth kind ≤ s.length := by omega
    have h0 : dec (s.take (kindWidth kind)) = some false := by
      have := h 0 (by omega)
      rw [Nat.zero_mul, List.drop_zero] at this
      exact this
    rw [verify_points, read_exact_of_le hw]
    simp only []
    rw [h0]
    simp only []
    have hrec : pointsOk dec (kindWidth kind) (s.drop (kindWidth kind)) c := by
      intro i hi
      rw [List.drop_drop,
        show kindWidth kind + i * kindWidth kind =
          (i + 1) * kindWidth kind from by ring]
      exact h (i + 1) (by omega)
    have hlc : c * kindWidth kind ≤ (s.drop (kindWidth kind)).length := by
      rw [List.length_drop]; omega
    rw [ih (s.drop (kindWidth kind)) (start + 1) hlc hrec, List.drop_drop,
      show kindWidth kind + c * kindWidth kind =
        (c + 1) * kindWidth kind from by ring]

theorem verify_points_ok_elim (dec : List Nat → Option Bool) (kind : PKind) :
    ∀ (count : Nat) (s : List Nat) (start : Nat) (r : List Nat),
      verify_points dec kind s start count = .ok r →
      pointsOk dec (kindWidth kind) s count ∧
        r = s.drop (count * kindWidth kind) ∧
        count * kindWidth kind ≤ s.length := by
  intro count
  induction count with
  | zero =>
    intro s start r h
    rw [verify_points] at h
    have hr : s = r := by
      injection h
    refine ⟨fun i hi => absurd hi (by omega), ?_, by omega⟩
    rw [← hr, Nat.zero_mul, List.drop_zero]
  | succ c ih =>
    intro s start r h
    rw [verify_points] at h
    by_cases hw : kindWidth kind ≤ s.length
    · rw [read_exact_of_le hw] at h
      simp only [] at h
      cases hdec : dec (s.take (kindWidth kind)) with
      | none =>
        rw [hdec] at h
        exact Except.noConfusion h
      | some bv =>
        rw [hdec] at h
        cases bv with
        | true =>
          simp only [] at h
          exact Except.noConfusion h
        | false =>
          simp only [] at h
          obtain ⟨hpo, hr, hl⟩ := ih (s.drop (kindWidth kind)) (start + 1) r h
          have hsm : (c + 1) * kindWidth kind =
              c * kindWidth kind + kindWidth kind := Nat.succ_mul _ _
          refine ⟨?_, ?_, ?_⟩
          · intro i hi
            cases i with
            | zero =>
              rw [Nat.zero_mul, List.drop_zero]
              exact hdec
            | succ j =>
              have hj := hpo j (by omega)
              rw [List.drop_drop,
                show kindWidth kind + j * kindWidth kind =
                  (j + 1) * kindWidth kind from by ring] at hj
              exact hj
          · rw [hr, List.drop_drop,
              show kindWidth kind + c * kindWidth kind =
                (c + 1) * kindWidth kind from by ring]
          · rw [List.length_drop] at hl
            omega
    · rw [read_exact, if_neg hw] at h
      exact Except.noConfusion h

theorem verify_points_err (dec : List Nat → Option Bool) (kind : PKind) :
    ∀ (count : Nat) (s : List Nat) (start k : Nat),
      k < count →
      k * kindWidth kind + kindWidth kind ≤ s.length →
      (∀ i, i < k →
        dec ((s.drop (i * kindWidth kind)).take (kindWidth kind)) =
          some false) →
      dec ((s.drop (k * kindWidth kind)).take (kindWidth kind)) ≠
        some false →
      verify_points dec kind s start count =
        .error (mkErr kind
          (dec ((s.drop (k * kindWidth kind)).take (kindWidth kind)))
          (start + k)) := by
  intro count
  induction count with
  | zero =>
    intro s start k hk
    omega
  | succ c ih =>
    intro s start k hk hlen hpre hbad
    have hw : kindWidth kind ≤ s.length := by omega
    cases k with
    | zero =>
      rw [Nat.zero_mul, List.drop_zero] at hbad ⊢
      rw [verify_points, read_exact_of_le hw]
      simp only []
      cases hdec : dec (s.take (kindWidth kind)) with
      | none =>
        simp [mkErr]
      | some bv =>
        cases bv with
        | true =>
          simp [mkErr]
        | false =>
          exact absurd hdec hbad
    | succ j =>
      have h0 : dec (s.take (kindWidth kind)) = some false := by
        have := hpre 0 (by omega)
        rw [Nat.zero_mul, List.drop_zero] at this
        exact this
      have hsm : (j + 1) * kindWidth kind =
          j * kindWidth kind + kindWidth kind := Nat.succ_mul _ _
      rw [verify_points, read_exact_of_le hw]
      simp only []
      rw [h0]
      simp only []
      have hlen' : j * kindWidth kind + kindWidth kind ≤
          (s.drop (kindWidth kind)).length := by
        rw [List.length_drop]
        omega
      have hpre' : ∀ i, i < j →
          dec (((s.drop (kindWidth kind)).drop (i * kindWidth kind)).take
            (kindWidth kind)) = some false := by
        intro i hi
        rw [List.drop_drop,
          show kindWidth kind + i * kindWidth kind =
            (i + 1) * kindWidth kind from by ring]
        exact hpre (i + 1) (by omega)
      have hbad' : dec (((s.drop (kindWidth kind)).drop
          (j * kindWidth kind)).take (kindWidth kind)) ≠ some false := by
        rw [List.drop_drop,
          show kindWidth kind + j * kindWidth kind =
            (j + 1) * kindWidth kind from by ring]
        exact hbad
      rw [ih (s.drop (kindWidth kind)) (start + 1) j (by omega) hlen' hpre'
        hbad']
      rw [List.drop_drop,
        show kindWidth kind + j * kindWidth kind =
          (j + 1) * kindWidth kind from by ring,
        show start + 1 + j = start + (j + 1) from by omega]

set_option maxHeartbeats 1600000 in
/-- Claim C4: run over the five sections of the target-power layout of a
file of (at least) that layout's size, the validator succeeds if and only if
every point of every section both decodes successfully and is not the group
identity; any decode failure or identity point makes it fail. -/
theorem verify_ok_iff_all_points_ok {dec1 dec2 : List Nat → Option Bool}
    {file : List Nat} {p : Nat}
    (hlen : 64 + expected_accumulator_bytes p ≤ file.length) :
    verify_reduced_challenge dec1 dec2 file p = .ok () ↔
      allSectionsOk dec1 dec2 (file.drop 64) p := by
  have hkw1 : kindWidth PKind.g1 = 96 := rfl
  have hkw2 : kindWidth PKind.g2 = 192 := rfl
  have e_def : expected_accumulator_bytes p =
      tau_g1_length p * 96 + tau_length p * 192 + tau_length p * 96 +
        tau_length p * 96 + 192 := rfl
  have hbl : expected_accumulator_bytes p ≤ (file.drop 64).length := by
    rw [List.length_drop]; omega
  have h64 : (64 : Nat) ≤ file.length := by omega
  rw [verify_reduced_challenge, read_exact_of_le h64]
  simp only [verify_g1_points, verify_g2_points]
  constructor
  · intro h
    cases h1 : verify_points dec1 PKind.g1 (file.drop 64) 0
        (tau_g1_length p) with
    | error e =>
      rw [h1] at h
      exact Except.noConfusion h
    | ok r1 =>
      rw [h1] at h
      simp only [] at h
      obtain ⟨hpo1, hr1, hl1⟩ :=
        verify_points_ok_elim dec1 PKind.g1 (tau_g1_length p) (file.drop 64)
          0 r1 h1
      subst hr1
      cases h2 : verify_points dec2 PKind.g2
          ((file.drop 64).drop (tau_g1_length p * kindWidth PKind.g1)) 0
          (tau_length p) with
      | error e =>
        rw [h2] at h
        exact Except.noConfusion h
      | ok r2 =>
        rw [h2] at h
        simp only [] at h
        obtain ⟨hpo2, hr2, hl2⟩ :=
          verify_points_ok_elim dec2 PKind.g2 (tau_length p) _ 0 r2 h2
        subst hr2
        cases h3 : verify_points dec1 PKind.g1
            (((file.drop 64).drop (tau_g1_length p * kindWidth PKind.g1)).drop
              (tau_length p * kindWidth PKind.g2)) 0 (tau_length p) with
        | error e =>
          rw [h3] at h
          exact Except.noConfusion h
        | ok r3 =>
          rw [h3] at h
          simp only [] at h
          obtain ⟨hpo3, hr3, hl3⟩ :=
            verify_points_ok_elim dec1 PKind.g1 (tau_length p) _ 0 r3 h3
          subst hr3
          cases h4 : verify_points dec1 PKind.g1
              ((((file.drop 64).drop
                (tau_g1_length p * kindWidth PKind.g1)).drop
                (tau_length p * kindWidth PKind.g2)).drop
                (tau_length p * kindWidth PKind.g1)) 0 (tau_length p) with
          | error e =>
            rw [h4] at h
            exact Except.noConfusion h
          | ok r4 =>
            rw [h4] at h
            simp only [] at h
            obtain ⟨hpo4, hr4, hl4⟩ :=
              verify_points_ok_elim dec1 PKind.g1 (tau_length p) _ 0 r4 h4
            subst hr4
            cases h5 : verify_points dec2 PKind.g2
                (((((file.drop 64).drop
                  (tau_g1_length p * kindWidth PKind.g1)).drop
                  (tau_length p * kindWidth PKind.g2)).drop
                  (tau_length p * kindWidth PKind.g1)).drop
                  (tau_length p * kindWidth PKind.g1)) 0 1 with
            | error e =>
              rw [h5] at h
              exact Except.noConfusion h
            | ok r5 =>
              obtain ⟨hpo5, hr5, hl5⟩ :=
                verify_points_ok_elim dec2 PKind.g2 1 _ 0 r5 h5
              intro i hi
              interval_cases i
              · simp only [secDec, secKindN, secCounts, secOffset, secBytes,
                  List.drop_zero]
                exact hpo1
              · simp only [secDec, secKindN, secCounts, secOffset, secBytes]
                exact hpo2
              · simp only [secDec, secKindN, secCounts, secOffset, secBytes]
                rw [List.drop_drop] at hpo3
                exact hpo3
              · simp only [secDec, secKindN, secCounts, secOffset, secBytes]
                rw [List.drop_drop, List.drop_drop] at hpo4
                rw [← Nat.add_assoc] at hpo4
                exact hpo4
              · simp only [secDec, secKindN, secCounts, secOffset, secBytes]
                rw [List.drop_drop, List.drop_drop, List.drop_drop] at hpo5
                rw [← Nat.add_assoc, ← Nat.add_assoc] at hpo5
                exact hpo5
  · intro h
    have k0 := h 0 (by omega)
    have k1 := h 1 (by omega)
    have k2 := h 2 (by omega)
    have k3 := h 3 (by omega)
    have k4 := h 4 (by omega)
    simp only [secDec, secKindN, secCounts, secOffset, secBytes,
      List.drop_zero] at k0 k1 k2 k3 k4
    rw [← List.drop_drop] at k2
    rw [← List.drop_drop, ← List.drop_drop] at k3
    rw [← List.drop_drop, ← List.drop_drop, ← List.drop_drop] at k4
    have hl1 : tau_g1_length p * kindWidth PKind.g1 ≤
        (file.drop 64).length := by
      rw [hkw1, List.length_drop]; omega
    have hl2 : tau_length p * kindWidth PKind.g2 ≤
        ((file.drop 64).drop
          (tau_g1_length p * kindWidth PKind.g1)).length := by
      rw [hkw1, hkw2, List.length_drop, List.length_drop]; omega
    have hl3 : tau_length p * kindWidth PKind.g1 ≤
        (((file.drop 64).drop (tau_g1_length p * kindWidth PKind.g1)).drop
          (tau_length p * kindWidth PKind.g2)).length := by
      rw [hkw1, hkw2, List.length_drop, List.length_drop,
        List.length_drop]
      omega
    have hl4 : tau_length p * kindWidth PKind.g1 ≤
        ((((file.drop 64).drop (tau_g1_length p * kindWidth PKind.g1)).drop
          (tau_length p * kindWidth PKind.g2)).drop
          (tau_length p * kindWidth PKind.g1)).length := by
      rw [hkw1, hkw2, List.length_drop, List.length_drop, List.length_drop,
        List.length_drop]
      omega
    have hl5 : 1 * kindWidth PKind.g2 ≤
        (((((file.drop 64).drop (tau_g1_length p * kindWidth PKind.g1)).drop
          (tau_length p * kindWidth PKind.g2)).drop
          (tau_length p * kindWidth PKind.g1)).drop
          (tau_length p * kindWidth PKind.g1)).length := by
      rw [hkw1, hkw2, List.length_drop, List.length_drop, List.length_drop,
        List.length_drop, List.length_drop]
      omega
    rw [verify_points_ok dec1 PKind.g1 (tau_g1_length p) (file.drop 64) 0
      hl1 k0]
    simp only []
    rw [verify_points_ok dec2 PKind.g2 (tau_length p) _ 0 hl2 k1]
    simp only []
    rw [verify_points_ok dec1 PKind.g1 (tau_length p) _ 0 hl3 k2]
    simp only []
    rw [verify_points_ok dec1 PKind.g1 (tau_length p) _ 0 hl4 k3]
    simp only []
    rw [verify_points_ok dec2 PKind.g2 1 _ 0 hl5 k4]

/-- Claim C5 (amended): the validator aborts at the first rejected point: if
every section before section `j` is fully valid, the first `k` points of
section `j` are valid and point `k` of section `j` is rejected (decode
failure or identity point), the validator returns exactly the error for that
point - whatever the bytes of later points and sections - and that error
carries the point kind (G1 or G2) and the zero-based index `k` of the point
within its own section.  The error does not name the section: same-kind
sections at the same index yield identical errors (see the
counterexample). -/
theorem verify_first_error {dec1 dec2 : List Nat → Option Bool}
    {file : List Nat} {p j k : Nat} (hj : j < 5)
    (hlen : 64 + expected_accumulator_bytes p ≤ file.length)
    (hpre : ∀ i, i < j → pointsOk (secDec dec1 dec2 i)
      (kindWidth (secKindN i)) ((file.drop 64).drop (secOffset p i))
      (secCounts p i))
    (hk : k < secCounts p j)
    (hik : ∀ i, i < k → secDec dec1 dec2 j
      ((((file.drop 64).drop (secOffset p j)).drop
        (i * kindWidth (secKindN j))).take (kindWidth (secKindN j))) =
      some false)
    (hbad : secDec dec1 dec2 j
      ((((file.drop 64).drop (secOffset p j)).drop
        (k * kindWidth (secKindN j))).take (kindWidth (secKindN j))) ≠
      some false) :
    verify_reduced_challenge dec1 dec2 file p =
      .error (mkErr (secKindN j) (secDec dec1 dec2 j
        ((((file.drop 64).drop (secOffset p j)).drop
          (k * kindWidth (secKindN j))).take (kindWidth (secKindN j)))) k) := by
  have hkw1 : kindWidth PKind.g1 = 96 := rfl
  have hkw2 : kindWidth PKind.g2 = 192 := rfl
  have e_def : expected_accumulator_bytes p =
      tau_g1_length p * 96 + tau_length p * 192 + tau_length p * 96 +
        tau_length p * 96 + 192 := rfl
  have hbl : expected_accumulator_bytes p ≤ (file.drop 64).length := by
    rw [List.length_drop]; omega
  have h64 : (64 : Nat) ≤ file.length := by omega
  rw [verify_reduced_challenge, read_exact_of_le h64]
  simp only [verify_g1_points, verify_g2_points]
  interval_cases j
  · simp only [secDec, secKindN, secCounts, secOffset, secBytes,
      List.drop_zero] at hik hbad hk ⊢
    have hsm : (k + 1) * 96 = k * 96 + 96 := Nat.succ_mul k 96
    have hkk : (k + 1) * 96 ≤ tau_g1_length p * 96 :=
      Nat.mul_le_mul_right 96 (by omega)
    have hlen0 : k * kindWidth PKind.g1 + kindWidth PKind.g1 ≤
        (file.drop 64).length := by
      rw [hkw1, List.length_drop]; omega
    rw [verify_points_err dec1 PKind.g1 (tau_g1_length p) (file.drop 64) 0 k
      hk hlen0 hik hbad]
    simp only []
    rw [Nat.zero_add]
  · simp only [secDec, secKindN, secCounts, secOffset, secBytes,
      List.drop_zero] at hik hbad hk ⊢
    have q0 := hpre 0 (by omega)
    simp only [secDec, secKindN, secCounts, secOffset, secBytes,
      List.drop_zero] at q0
    have hl1 : tau_g1_length p * kindWidth PKind.g1 ≤
        (file.drop 64).length := by
      rw [hkw1, List.length_drop]; omega
    rw [verify_points_ok dec1 PKind.g1 (tau_g1_length p) (file.drop 64) 0
      hl1 q0]
    simp only []
    have hsm : (k + 1) * 192 = k * 192 + 192 := Nat.succ_mul k 192
    have hkk : (k + 1) * 192 ≤ tau_length p * 192 :=
      Nat.mul_le_mul_right 192 (by omega)
    have hlen1 : k * kindWidth PKind.g2 + kindWidth PKind.g2 ≤
        ((file.drop 64).drop
          (tau_g1_length p * kindWidth PKind.g1)).length := by
      rw [hkw1, hkw2, List.length_drop, List.length_drop]; omega
    rw [verify_points_err dec2 PKind.g2 (tau_length p)
      ((file.drop 64).drop (tau_g1_length p * kindWidth PKind.g1)) 0 k hk
      hlen1 hik hbad]
    simp only []
    rw [Nat.zero_add]
  · simp only [secDec, secKindN, secCounts, secOffset, secBytes,
      List.drop_zero] at hik hbad hk ⊢
    have q0 := hpre 0 (by omega)
    have q1 := hpre 1 (by omega)
    simp only [secDec, secKindN, secCounts, secOffset, secBytes,
      List.drop_zero] at q0 q1
    rw [← List.drop_drop] at hik hbad ⊢
    have hl1 : tau_g1_length p * kindWidth PKind.g1 ≤
        (file.drop 64).length := by
      rw [hkw1, List.length_drop]; omega
    rw [verify_points_ok dec1 PKind.g1 (tau_g1_length p) (file.drop 64) 0
      hl1 q0]
    simp only []
    have hl2 : tau_length p * kindWidth PKind.g2 ≤
        ((file.drop 64).drop
          (tau_g1_length p * kindWidth PKind.g1)).length := by
      rw [hkw1, hkw2, List.length_drop, List.length_drop]; omega
    rw [verify_points_ok dec2 PKind.g2 (tau_length p)
      ((file.drop 64).drop (tau_g1_length p * kindWidth PKind.g1)) 0 hl2 q1]
    simp only []
    have hsm : (k + 1) * 96 = k * 96 + 96 := Nat.succ_mul k 96
    have hkk : (k + 1) * 96 ≤ tau_length p * 96 :=
      Nat.mul_le_mul_right 96 (by omega)
    have hlen2 : k * kindWidth PKind.g1 + kindWidth PKind.g1 ≤
        (((file.drop 64).drop (tau_g1_length p * kindWidth PKind.g1)).drop
          (tau_length p * kindWidth PKind.g2)).length := by
      rw [hkw1, hkw2, List.length_drop, List.length_drop, List.length_drop]
      omega
    rw [verify_points_err dec1 PKind.g1 (tau_length p)
      (((file.drop 64).drop (tau_g1_length p * kindWidth PKind.g1)).drop
        (tau_length p * kindWidth PKind.g2)) 0 k hk hlen2 hik hbad]
    simp only []
    rw [Nat.zero_add]
  · simp only [secDec, secKindN, secCounts, secOffset, secBytes,
      List.drop_zero] at hik hbad hk ⊢
    have q0 := hpre 0 (by omega)
    have q1 := hpre 1 (by omega)
    have q2 := hpre 2 (by omega)
    simp only [secDec, secKindN, secCounts, secOffset, secBytes,
      List.drop_zero] at q0 q1 q2
    rw [← List.drop_drop] at q2
    rw [← List.drop_drop, ← List.drop_drop] at hik hbad ⊢
    have hl1 : tau_g1_length p * kindWidth PKind.g1 ≤
        (file.drop 64).length := by
      rw [hkw1, List.length_drop]; omega
    rw [verify_points_ok dec1 PKind.g1 (tau_g1_length p) (file.drop 64) 0
      hl1 q0]
    simp only []
    have hl2 : tau_length p * kindWidth PKind.g2 ≤
        ((file.drop 64).drop
          (tau_g1_length p * kindWidth PKind.g1)).length := by
      rw [hkw1, hkw2, List.length_drop, List.length_drop]; omega
    rw [verify_points_ok dec2 PKind.g2 (tau_length p)
      ((file.drop 64).drop (tau_g1_length p * kindWidth PKind.g1)) 0 hl2 q1]
    simp only []
    have hl3 : tau_length p * kindWidth PKind.g1 ≤
        (((file.drop 64).drop (tau_g1_length p * kindWidth PKind.g1)).drop
          (tau_length p * kindWidth PKind.g2)).length := by
      rw [hkw1, hkw2, List.length_drop, List.length_drop, List.length_drop]
      omega
    rw [verify_points_ok dec1 PKind.g1 (tau_length p)
      (((file.drop 64).drop (tau_g1_length p * kindWidth PKind.g1)).drop
        (tau_length p * kindWidth PKind.g2)) 0 hl3 q2]
    simp only []
    have hsm : (k + 1) * 96 = k * 96 + 96 := Nat.succ_mul k 96
    have hkk : (k + 1) * 96 ≤ tau_length p * 96 :=
      Nat.mul_le_mul_right 96 (by omega)
    have hlen3 : k * kindWidth PKind.g1 + kindWidth PKind.g1 ≤
        ((((file.drop 64).drop (tau_g1_length p * kindWidth PKind.g1)).drop
          (tau_length p * kindWidth PKind.g2)).drop
          (tau_length p * kindWidth PKind.g1)).length := by
      rw [hkw1, hkw2, List.length_drop, List.length_drop, List.length_drop,
        List.length_drop]
      omega
    rw [verify_points_err dec1 PKind.g1 (tau_length p)
      ((((file.drop 64).drop (tau_g1_length p * kindWidth PKind.g1)).drop
        (tau_length p * kindWidth PKind.g2)).drop
        (tau_length p * kindWidth PKind.g1)) 0 k hk hlen3 hik hbad]
    simp only []
    rw [Nat.zero_add]
  · simp only [secDec, secKindN, secCounts, secOffset, secBytes,
      List.drop_zero] at hik hbad hk ⊢
    have q0 := hpre 0 (by omega)
    have q1 := hpre 1 (by omega)
    have q2 := hpre 2 (by omega)
    have q3 := hpre 3 (by omega)
    simp only [secDec, secKindN, secCounts, secOffset, secBytes,
      List.drop_zero] at q0 q1 q2 q3
    rw [← List.drop_drop] at q2
    rw [← List.drop_drop, ← List.drop_drop] at q3
    rw [← List.drop_drop, ← List.drop_drop, ← List.drop_drop] at hik hbad ⊢
    have hl1 : tau_g1_length p * kindWidth PKind.g1 ≤
        (file.drop 64).length := by
      rw [hkw1, List.length_drop]; omega
    rw [verify_points_ok dec1 PKind.g1 (tau_g1_length p) (file.drop 64) 0
      hl1 q0]
    simp only []
    have hl2 : tau_length p * kindWidth PKind.g2 ≤
        ((file.drop 64).drop
          (tau_g1_length p * kindWidth PKind.g1)).length := by
      rw [hkw1, hkw2, List.length_drop, List.length_drop]; omega
    rw [verify_points_ok dec2 PKind.g2 (tau_length p)
      ((file.drop 64).drop (tau_g1_length p * kindWidth PKind.g1)) 0 hl2 q1]
    simp only []
    have hl3 : tau_length p * kindWidth PKind.g1 ≤
        (((file.drop 64).drop (tau_g1_length p * kindWidth PKind.g1)).drop
          (tau_length p * kindWidth PKind.g2)).length := by
      rw [hkw1, hkw2, List.length_drop, List.length_drop, List.length_drop]
      omega
    rw [verify_points_ok dec1 PKind.g1 (tau_length p)
      (((file.drop 64).drop (tau_g1_length p * kindWidth PKind.g1)).drop
        (tau_length p * kindWidth PKind.g2)) 0 hl3 q2]
    simp only []
    have hl4 : tau_length p * kindWidth PKind.g1 ≤
        ((((file.drop 64).drop (tau_g1_length p * kindWidth PKind.g1)).drop
          (tau_length p * kindWidth PKind.g2)).drop
          (tau_length p * kindWidth PKind.g1)).length := by
      rw [hkw1, hkw2, List.length_drop, List.length_drop, List.length_drop,
        List.length_drop]
      omega
    rw [verify_points_ok dec1 PKind.g1 (tau_length p)
      ((((file.drop 64).drop (tau_g1_length p * kindWidth PKind.g1)).drop
        (tau_length p * kindWidth PKind.g2)).drop
        (tau_length p * kindWidth PKind.g1)) 0 hl4 q3]
    simp only []
    have hsm : (k + 1) * 192 = k * 192 + 192 := Nat.succ_mul k 192
    have hkk : (k + 1) * 192 ≤ 1 * 192 :=
      Nat.mul_le_mul_right 192 (by omega)
    have hlen4 : k * kindWidth PKind.g2 + kindWidth PKind.g2 ≤
        (((((file.drop 64).drop (tau_g1_length p * kindWidth PKind.g1)).drop
          (tau_length p * kindWidth PKind.g2)).drop
          (tau_length p * kindWidth PKind.g1)).drop
          (tau_length p * kindWidth PKind.g1)).length := by
      rw [hkw1, hkw2, List.length_drop, List.length_drop, List.length_drop,
        List.length_drop, List.length_drop]
      omega
    rw [verify_points_err dec2 PKind.g2 1
      (((((file.drop 64).drop (tau_g1_length p * kindWidth PKind.g1)).drop
        (tau_length p * kindWidth PKind.g2)).drop
        (tau_length p * kindWidth PKind.g1)).drop
        (tau_length p * kindWidth PKind.g1)) 0 k hk hlen4 hik hbad]
    simp only []
    rw [Nat.zero_add]

/-- Claim C4 witness: the iff at target power 0 on an all-zero 736-byte file
with a codec that accepts every point. -/
theorem verify_ok_iff_all_points_ok_witness :
    64 + expected_accumulator_bytes 0 ≤ (List.replicate 736 (0 : Nat)).length ∧
    (verify_reduced_challenge cexDecOk cexDecOk
        (List.replicate 736 (0 : Nat)) 0 = .ok () ↔
      allSectionsOk cexDecOk cexDecOk
        ((List.replicate 736 (0 : Nat)).drop 64) 0) :=
  ⟨by rw [List.length_replicate]; decide,
   @verify_ok_iff_all_points_ok cexDecOk cexDecOk
     (List.replicate 736 (0 : Nat)) 0 (by rw [List.length_replicate]; decide)⟩

/-- Claim C5 witness: the amended fail-fast law instantiated at target power
0 on `cexFile1`, whose very first point of the first section fails to
decode. -/
theorem verify_first_error_witness :
    (0 : Nat) < 5 ∧
    64 + expected_accumulator_bytes 0 ≤ cexFile1.length ∧
    (0 : Nat) < secCounts 0 0 ∧
    cexDecBad ((((cexFile1.drop 64).drop (secOffset 0 0)).drop
      (0 * kindWidth (secKindN 0))).take (kindWidth (secKindN 0))) ≠
      some false ∧
    verify_reduced_challenge cexDecBad cexDecOk cexFile1 0 =
      .error (mkErr (secKindN 0) (cexDecBad ((((cexFile1.drop 64).drop
        (secOffset 0 0)).drop (0 * kindWidth (secKindN 0))).take
        (kindWidth (secKindN 0)))) 0) := by
  refine ⟨by decide, by decide, by decide, by decide, ?_⟩
  exact @verify_first_error cexDecBad cexDecOk cexFile1 0 0 0 (by decide)
    (by decide) (fun i hi => absurd hi (by omega)) (by decide)
    (fun i hi => absurd hi (by omega)) (by decide)

/-- Claim C5 counterexample: two output-shaped files whose single corrupted
point lies in different sections (`tau_powers_g1` for `cexFile1`,
`alpha_tau_powers_g1` for `cexFile2`, as the `pointsOk` conjuncts show)
produce the very same validator error, so the emitted error does not
identify the section, contrary to the claim. -/
theorem verify_error_no_section_cex :
    verify_reduced_challenge cexDecBad cexDecOk cexFile1 0 =
      .error (.invalidPoint .g1 0) ∧
    verify_reduced_challenge cexDecBad cexDecOk cexFile2 0 =
      .error (.invalidPoint .g1 0) ∧
    ¬ pointsOk cexDecBad 96 (cexFile1.drop 64) 1 ∧
    pointsOk cexDecBad 96 (cexFile2.drop 64) 1 ∧
    pointsOk cexDecOk 192 ((cexFile2.drop 64).drop 96) 1 ∧
    ¬ pointsOk cexDecBad 96 ((cexFile2.drop 64).drop 288) 1 := by
  refine ⟨by decide, by decide, by decide, by decide, by decide, by decide⟩
